import Mathlib

/-!
Shallow embedding of the AI request orchestration layer of
`src/utils/ai_helper.py` (WhatsApp job-alert bot): rate limiter,
response cache, model cascade, usage accounting and the orchestrator
entry point `ask_deepseek`.

Time values (`time.time()`) are modelled as rationals.  The external
MD5 hash (`hashlib.md5(...).hexdigest()`) is modelled as an arbitrary
function parameter `md5 : String → String`; no property of it is
assumed.  Exceptions are modelled with `Except String`, the error
carrying `str(e)`.
-/

namespace AIHelper

attribute [local semireducible] Rat.sub Rat.add Rat.mul

set_option maxRecDepth 40000

/-- A Python value, as far as the contexts passed to the AI helper are
concerned.  `nonser` stands for any object that `json.dumps` cannot
serialize (it raises `TypeError` on it). -/
inductive PyVal where
  | null : PyVal
  | bool (b : Bool) : PyVal
  | int (n : Int) : PyVal
  | str (s : String) : PyVal
  | list (xs : List PyVal) : PyVal
  | dict (xs : List (String × PyVal)) : PyVal
  | nonser (id : Nat) : PyVal

/-- Python truthiness of a value (used by `if context:` and friends). -/
def pyTruthy : PyVal → Bool
  | .null => false
  | .bool b => b
  | .int n => n != 0
  | .str s => s ≠ ""
  | .list xs => !xs.isEmpty
  | .dict xs => !xs.isEmpty
  | .nonser _ => true

/-- Comma-and-space separated join, as Python uses between collection items. -/
def joinComma (ss : List String) : String := String.intercalate ", " ss

/-- JSON string quoting as `json.dumps` performs it on the string values
we model (escaping backslash, quote and the common control characters). -/
def jsonQuote (s : String) : String :=
  "\"" ++ String.join (s.data.map fun c =>
    if c = '\"' then "\\\""
    else if c = '\\' then "\\\\"
    else if c = '\n' then "\\n"
    else if c = '\t' then "\\t"
    else if c = '\r' then "\\r"
    else String.singleton c) ++ "\""

/-- Insertion of one key into a key-sorted list of rendered dict items. -/
def insertSortedPair (p : String × String) : List (String × String) → List (String × String)
  | [] => [p]
  | q :: rest => if p.1 < q.1 then p :: q :: rest else q :: insertSortedPair p rest

/-- Sorting rendered dict items by key, as `json.dumps(..., sort_keys=True)` does. -/
def sortPairsByKey (ps : List (String × String)) : List (String × String) :=
  ps.foldr insertSortedPair []

mutual

/-- `json.dumps(v, sort_keys=True)`: renders the value, or raises
`TypeError` (error case) on a non-serializable object. -/
def pyDumps : PyVal → Except String String
  | .null => .ok "null"
  | .bool b => .ok (if b then "true" else "false")
  | .int n => .ok (toString n)
  | .str s => .ok (jsonQuote s)
  | .list xs =>
    match pyDumpsList xs with
    | .ok ss => .ok ("[" ++ joinComma ss ++ "]")
    | .error e => .error e
  | .dict xs =>
    match pyDumpsPairs xs with
    | .ok ps =>
      .ok ("\x7b" ++ joinComma ((sortPairsByKey ps).map fun p => jsonQuote p.1 ++ ": " ++ p.2) ++ "\x7d")
    | .error e => .error e
  | .nonser _ => .error "TypeError: Object is not JSON serializable"

/-- Renders every element of a list, propagating the first `TypeError`. -/
def pyDumpsList : List PyVal → Except String (List String)
  | [] => .ok []
  | v :: rest =>
    match pyDumps v with
    | .ok s =>
      match pyDumpsList rest with
      | .ok ss => .ok (s :: ss)
      | .error e => .error e
    | .error e => .error e

/-- Renders every entry of a dict as a (key, rendered value) pair. -/
def pyDumpsPairs : List (String × PyVal) → Except String (List (String × String))
  | [] => .ok []
  | (k, v) :: rest =>
    match pyDumps v with
    | .ok s =>
      match pyDumpsPairs rest with
      | .ok ps => .ok ((k, s) :: ps)
      | .error e => .error e
    | .error e => .error e

end

mutual

/-- Python `repr` for the values we model (as used by `str()` on lists). -/
def pyRepr : PyVal → String
  | .null => "None"
  | .bool b => if b then "True" else "False"
  | .int n => toString n
  | .str s => "\x27" ++ s ++ "\x27"
  | .list xs => "[" ++ joinComma (pyReprList xs) ++ "]"
  | .dict xs => "\x7b" ++ joinComma (pyReprPairs xs) ++ "\x7d"
  | .nonser id => "<object " ++ toString id ++ ">"

/-- `repr` of each element of a list. -/
def pyReprList : List PyVal → List String
  | [] => []
  | v :: rest => pyRepr v :: pyReprList rest

/-- `repr` of each entry of a dict. -/
def pyReprPairs : List (String × PyVal) → List String
  | [] => []
  | (k, v) :: rest => ("\x27" ++ k ++ "\x27: " ++ pyRepr v) :: pyReprPairs rest

end

/-- Python `str()`, as an f-string applies it to an interpolated value. -/
def pyStr : PyVal → String
  | .str s => s
  | v => pyRepr v

/-- `context_str = json.dumps(context, sort_keys=True) if context else ""`
(line 243 of `ai_helper.py`): a falsy context — `None` or an empty dict —
contributes the empty string. -/
def contextStrE : Option PyVal → Except String String
  | none => .ok ""
  | some v => if pyTruthy v then pyDumps v else .ok ""

/-- The exact string handed to `hashlib.md5` in `get_cache_key`:
`f"{prompt}{context_str}"`. -/
def cacheKeyBase (prompt : String) (context : Option PyVal) : Except String String :=
  match contextStrE context with
  | .ok cs => .ok (prompt ++ cs)
  | .error e => .error e

/-- `get_cache_key(prompt, context)` (lines 241–244): MD5 hex digest of the
prompt concatenated with the serialized context.  The MD5 itself is the
external `hashlib` primitive, taken as the parameter `md5`. -/
def get_cache_key (md5 : String → String) (prompt : String) (context : Option PyVal) :
    Except String String :=
  match cacheKeyBase prompt context with
  | .ok base => .ok (md5 base)
  | .error e => .error e

/-- A concrete stand-in hash used only to instantiate `md5` in closed
statements; nothing is assumed about it beyond being a function. -/
def hashModel (s : String) : String :=
  toString (s.data.foldl (fun a c => (a * 131 + c.toNat) % 2 ^ 64) 0)

/-! ## Rate limiter (lines 26–32, 139–170) -/

/-- `MIN_REQUEST_INTERVAL = 2.0` seconds. -/
def MIN_REQUEST_INTERVAL : ℚ := 2

/-- `MAX_REQUESTS_PER_MINUTE = 20`. -/
def MAX_REQUESTS_PER_MINUTE : ℕ := 20

/-- The module globals `request_times` and `LAST_REQUEST_TIME`
(initially `[]` and `0`). -/
structure RLState where
  request_times : List ℚ
  last_request_time : ℚ
deriving DecidableEq

/-- `request_times = [t for t in request_times if now - t < 60]`:
drop timestamps 60 seconds old or older. -/
def pruneTimes (now : ℚ) (ts : List ℚ) : List ℚ :=
  ts.filter fun t => now - t < 60

/-- `can_make_request()` (lines 139–157) evaluated at time `now`: the
pruned timestamp list (the function reassigns the global) and whether a
request may go out — it may not when the pruned count has reached
`MAX_REQUESTS_PER_MINUTE` or less than `MIN_REQUEST_INTERVAL` has elapsed
since `LAST_REQUEST_TIME`. -/
def can_make_request (s : RLState) (now : ℚ) : Bool × List ℚ :=
  if MAX_REQUESTS_PER_MINUTE ≤ (pruneTimes now s.request_times).length then
    (false, pruneTimes now s.request_times)
  else if now - s.last_request_time < MIN_REQUEST_INTERVAL then
    (false, pruneTimes now s.request_times)
  else (true, pruneTimes now s.request_times)

/-- One poll of the `wait_for_rate_limit()` loop at time `now`: a
`can_make_request` check and — when it passes — the recording step
`request_times.append(now); LAST_REQUEST_TIME = now`. -/
def rlStep (s : RLState) (now : ℚ) : RLState × Bool :=
  if (can_make_request s now).1 then (⟨(can_make_request s now).2 ++ [now], now⟩, true)
  else (⟨(can_make_request s now).2, s.last_request_time⟩, false)

/-- A whole sequence of polls at the given (increasing) times; returns the
final limiter state and the times at which a request was admitted. -/
def rlRun (s : RLState) : List ℚ → RLState × List ℚ
  | [] => (s, [])
  | now :: rest =>
    ((rlRun (rlStep s now).1 rest).1,
      if (rlStep s now).2 then now :: (rlRun (rlStep s now).1 rest).2
      else (rlRun (rlStep s now).1 rest).2)

/-- Effect of `wait_for_rate_limit()` (lines 159–170) on the limiter
state, given the time `tAdmit` at which its poll loop exited: the final
`can_make_request` poll has pruned the list, then `now` is appended and
`LAST_REQUEST_TIME` set.  (The loop only exits through a successful
poll, so the admission conditions held at `tAdmit`.) -/
def wait_for_rate_limit (s : RLState) (tAdmit : ℚ) : RLState :=
  ⟨pruneTimes tAdmit s.request_times ++ [tAdmit], tAdmit⟩

/-! ## Response cache (lines 34–37, 246–270) -/

/-- `CACHE_EXPIRY_MINUTES = 30`. -/
def CACHE_EXPIRY_MINUTES : ℚ := 30

/-- The dict `ask_deepseek` returns: `{"reasoning": ..., "content": ...}`. -/
structure RespDict where
  reasoning : String
  content : String
deriving DecidableEq

/-- One value of the `AI_CACHE` dict: `{'response': ..., 'timestamp': ...}`. -/
structure CacheItem where
  response : RespDict
  timestamp : ℚ
deriving DecidableEq

/-- `AI_CACHE`, a Python dict modelled as its insertion-ordered
key-value list (keys unique). -/
abbrev CacheTable := List (String × CacheItem)

/-- Dict membership / read: the entry stored under `k`, if any. -/
def lookupCache (c : CacheTable) (k : String) : Option CacheItem :=
  (c.find? fun e => e.1 == k).map fun e => e.2

/-- `del AI_CACHE[k]`: removes the entry stored under `k`. -/
def eraseCacheKey (c : CacheTable) (k : String) : CacheTable :=
  c.filter fun e => !(e.1 == k)

/-- `AI_CACHE[k] = v`: Python dict assignment — overwrites in place when
the key is present (keeping its position), appends otherwise. -/
def dictInsert (c : CacheTable) (k : String) (v : CacheItem) : CacheTable :=
  if c.any fun e => e.1 == k then c.map fun e => if e.1 == k then (k, v) else e
  else c ++ [(k, v)]

/-- `min(AI_CACHE.keys(), key=lambda k: AI_CACHE[k]['timestamp'])`: the
first entry (in iteration order) with the smallest timestamp. -/
def minByTs : CacheTable → Option (String × CacheItem)
  | [] => none
  | e :: rest =>
    match minByTs rest with
    | none => some e
    | some m => if m.2.timestamp < e.2.timestamp then some m else some e

/-- `get_cached_response(cache_key)` (lines 246–258) at time `now`: the
cached response when present and younger than 30 minutes; otherwise the
stale entry (if any) is deleted and the call reports a miss.  Returns
the read result and the possibly shrunk table. -/
def get_cached_response (c : CacheTable) (k : String) (now : ℚ) :
    Option RespDict × CacheTable :=
  match lookupCache c k with
  | some item =>
    if now - item.timestamp < CACHE_EXPIRY_MINUTES * 60 then (some item.response, c)
    else (none, eraseCacheKey c k)
  | none => (none, c)

/-- `cache_response(cache_key, response)` (lines 260–270) at time `now`:
store the entry, then — if the table has grown past 100 entries — evict
the entry with the oldest timestamp. -/
def cache_response (c : CacheTable) (k : String) (resp : RespDict) (now : ℚ) : CacheTable :=
  if 100 < (dictInsert c k ⟨resp, now⟩).length then
    match minByTs (dictInsert c k ⟨resp, now⟩) with
    | some oldest => eraseCacheKey (dictInsert c k ⟨resp, now⟩) oldest.1
    | none => dictInsert c k ⟨resp, now⟩
  else dictInsert c k ⟨resp, now⟩

/-! ## Usage accounting (lines 71–106, 172–182) -/

/-- All module-level mutable state of `ai_helper.py` that the
orchestrator touches: the rate window, the response cache, the
`daily_usage` dict and the `model_usage` dict (attempts, successes,
failures per model name). -/
structure AIState where
  request_times : List ℚ
  last_request_time : ℚ
  aiCache : CacheTable
  usageDate : String
  usageRequests : ℕ
  usageCacheHits : ℕ
  usageModelSwitches : ℕ
  modelUsage : List (String × ℕ × ℕ × ℕ)
deriving DecidableEq

/-- The state at module import: empty window, `LAST_REQUEST_TIME = 0`,
empty cache, `daily_usage = {"date": "", 0, 0, 0}`, empty `model_usage`. -/
def initAIState : AIState :=
  ⟨[], 0, [], "", 0, 0, 0, []⟩

/-- `log_usage_stats()` (lines 79–92) on day `today`: roll the day over
(resetting all three counters) when the stored date differs, then count
one request. -/
def log_usage_stats (s : AIState) (today : String) : AIState :=
  let s1 :=
    if s.usageDate ≠ today then
      { s with usageDate := today, usageRequests := 0, usageCacheHits := 0,
               usageModelSwitches := 0 }
    else s
  { s1 with usageRequests := s1.usageRequests + 1 }

/-- `log_model_usage(model_name, success)` (lines 172–182): create the
per-model record if absent, then bump attempts and the success or
failure counter. -/
def log_model_usage (mu : List (String × ℕ × ℕ × ℕ)) (name : String) (success : Bool) :
    List (String × ℕ × ℕ × ℕ) :=
  let mu1 := if mu.any fun e => e.1 == name then mu else mu ++ [(name, 0, 0, 0)]
  mu1.map fun e =>
    if e.1 == name then
      (name, e.2.1 + 1,
        (if success then e.2.2.1 + 1 else e.2.2.1),
        (if success then e.2.2.2 else e.2.2.2 + 1))
    else e

/-! ## Model cascade (lines 40–69, 184–239) -/

/-- One entry of `FALLBACK_MODELS`: model name, `max_tokens`,
`temperature`, `priority`. -/
structure ModelConfig where
  name : String
  max_tokens : ℕ
  temperature : ℚ
  priority : ℕ
deriving DecidableEq

/-- `FALLBACK_MODELS` (lines 40–69), in source order. -/
def FALLBACK_MODELS : List ModelConfig :=
  [⟨"deepseek/deepseek-r1:free", 1000, 7 / 10, 1⟩,
   ⟨"meta-llama/llama-4-scout:free", 900, 6 / 10, 2⟩,
   ⟨"google/gemma-2-9b-it:free", 700, 6 / 10, 3⟩,
   ⟨"openrouter/cypher-alpha:free", 600, 5 / 10, 4⟩]

/-- What `client.chat.completions.create` yields on success:
`response.choices[0].message.content` (may be `None`) and the
`reasoning_content` attribute (absent or `None` become `none`). -/
structure ProviderResp where
  content : Option String
  reasoning : Option String
deriving DecidableEq

/-- Outcome of one provider call: a response object, or an exception
carrying `str(e)`. -/
inductive Outcome where
  | ok (resp : ProviderResp) : Outcome
  | err (msg : String) : Outcome
deriving DecidableEq

/-- Whether `Outcome.err` (used to state hypotheses about oracles). -/
def Outcome.isErr : Outcome → Bool
  | .ok _ => false
  | .err _ => true

/-- Substring test, as Python `in` on strings. -/
def strContains (s pat : String) : Bool :=
  (List.range (s.length + 1)).any fun i => pat.data.isPrefixOf (s.data.drop i)

/-- `error_msg.lower()`, for the ASCII alphabet our error messages use. -/
def strToLower (s : String) : String :=
  String.mk (s.data.map Char.toLower)

/-- The error classification used in both `make_ai_request_with_retry`
and `ask_deepseek`: `"429" in error_msg or "rate limit" in
error_msg.lower()`. -/
def isRateLimitMsg (msg : String) : Bool :=
  strContains msg "429" || strContains (strToLower msg) "rate limit"

/-- The `for attempt in range(max_retries)` loop of
`make_ai_request_with_retry` (lines 200–235) for one model.  `attempt`
is the current loop index, `remaining` the number of iterations left
(`attempt + remaining = max_retries`).  `oracle idx attempt` is the
provider outcome of that attempt.  Returns the successful response (if
any) and the `(model_name, success)` records logged, in order.  A
rate-limit-classified error and an error on the last attempt both break
to the next model; any other error retries the same model. -/
def tryModelAux (oracle : ℕ → ℕ → Outcome) (idx : ℕ) (name : String) :
    ℕ → ℕ → Option ProviderResp × List (String × Bool)
  | _, 0 => (none, [])
  | attempt, remaining + 1 =>
    match oracle idx attempt with
    | .ok resp => (some resp, [(name, true)])
    | .err msg =>
      if isRateLimitMsg msg then (none, [(name, false)])
      else if remaining = 0 then (none, [(name, false)])
      else
        ((tryModelAux oracle idx name (attempt + 1) remaining).1,
          (name, false) :: (tryModelAux oracle idx name (attempt + 1) remaining).2)

/-- The `for model_config in FALLBACK_MODELS` loop (lines 193–235) over
an arbitrary descriptor list starting at index `idx`: first success
wins, carrying its descriptor; all `(name, success)` log records are
accumulated in order. -/
def cascade (oracle : ℕ → ℕ → Outcome) (maxRetries : ℕ) :
    ℕ → List ModelConfig → Option (ProviderResp × ModelConfig) × List (String × Bool)
  | _, [] => (none, [])
  | idx, cfg :: rest =>
    match tryModelAux oracle idx cfg.name 0 maxRetries with
    | (some resp, log) => (some (resp, cfg), log)
    | (none, log) =>
      ((cascade oracle maxRetries (idx + 1) rest).1,
        log ++ (cascade oracle maxRetries (idx + 1) rest).2)

/-- Folds the cascade's per-attempt log into `model_usage`, one
`log_model_usage` call per record. -/
def applyUsageLog (mu : List (String × ℕ × ℕ × ℕ)) (log : List (String × Bool)) :
    List (String × ℕ × ℕ × ℕ) :=
  log.foldl (fun m e => log_model_usage m e.1 e.2) mu

/-- `make_ai_request_with_retry(messages, max_retries=1)` (lines
184–239): `None` unless the client is configured; otherwise wait for
the rate limiter (admission at time `tAdmit`), run the cascade, log
model usage, and bump `daily_usage["model_switches"]` when the winning
descriptor's priority exceeds 1.  All provider exceptions are consumed
inside the loop; exhaustion yields `None`. -/
def make_ai_request_with_retry (oracle : ℕ → ℕ → Outcome) (maxRetries : ℕ)
    (aiAvailable : Bool) (tAdmit : ℚ) (s : AIState) : Option ProviderResp × AIState :=
  if !aiAvailable then (none, s)
  else
    let s2 : AIState :=
      { s with request_times :=
                 (wait_for_rate_limit ⟨s.request_times, s.last_request_time⟩ tAdmit).request_times,
               last_request_time :=
                 (wait_for_rate_limit ⟨s.request_times, s.last_request_time⟩ tAdmit).last_request_time,
               modelUsage :=
                 applyUsageLog s.modelUsage (cascade oracle maxRetries 0 FALLBACK_MODELS).2 }
    match (cascade oracle maxRetries 0 FALLBACK_MODELS).1 with
    | some (resp, cfg) =>
      (some resp,
        if 1 < cfg.priority then
          { s2 with usageModelSwitches := s2.usageModelSwitches + 1 }
        else s2)
    | none => (none, s2)

/-! ## Prompt building (lines 379–392) -/

/-- `dict.get(k, default)`. -/
def pyGetD (d : List (String × PyVal)) (k : String) (dflt : PyVal) : PyVal :=
  ((d.find? fun e => e.1 == k).map fun e => e.2).getD dflt

/-- Python's `or` on an optional string: `None` and `""` both fall
through to the default. -/
def pyOr (v : Option String) (dflt : String) : String :=
  match v with
  | some s => if s = "" then dflt else s
  | none => dflt

/-- `build_enhanced_prompt(prompt, context)` (lines 379–392).  A truthy
context must be a dict (`.get` on anything else raises, caught by the
orchestrator's `except`); a truthy `user_info` must be a dict; a truthy
`conversation_history` is sliced `[-3:]`, which works on lists and
strings and raises on other values. -/
def build_enhanced_prompt (prompt : String) (context : Option PyVal) :
    Except String String :=
  match context with
  | none => .ok prompt
  | some ctx =>
    if pyTruthy ctx then
      match ctx with
      | .dict d =>
        let ui := pyGetD d "user_info" (.dict [])
        let step1 : Except String String :=
          if pyTruthy ui then
            match ui with
            | .dict uid =>
              .ok (prompt ++ "\n\nUser context: Interest=" ++
                pyStr (pyGetD uid "interest" (.str "Not set")) ++ ", Balance=" ++
                pyStr (pyGetD uid "balance" (.int 0)) ++ " credits")
            | _ => .error "AttributeError: object has no attribute get"
          else .ok prompt
        match step1 with
        | .error e => .error e
        | .ok enh1 =>
          let ch := pyGetD d "conversation_history" (.list [])
          if pyTruthy ch then
            match ch with
            | .list l =>
              .ok (enh1 ++ "\n\nRecent conversation: " ++
                pyRepr (.list (l.drop (l.length - 3))))
            | .str cs =>
              .ok (enh1 ++ "\n\nRecent conversation: " ++
                String.mk (cs.data.drop (cs.length - 3)))
            | _ => .error "TypeError: object is not subscriptable"
          else .ok enh1
      | _ => .error "AttributeError: object has no attribute get"
    else .ok prompt

/-! ## Orchestrator `ask_deepseek` (lines 272–354) -/

/-- The static reply when the client is not configured (lines 284–287). -/
def unavailableResp : RespDict :=
  ⟨"", "AI assistant is currently unavailable. Please try again later or contact support."⟩

/-- The fallback when the whole cascade came back empty (lines 319–322). -/
def exhaustionResp : RespDict :=
  ⟨"", "🤖 All our AI advisors are busy now. Please try again in a few minutes.\n\nIn the meantime, you can use our regular job alert features:\n\n📋 *Available Job Categories:*\n• *Data Entry* - Data processing jobs\n• *Sales & Marketing* - Business development roles\n• *Software Engineering* - Programming and tech jobs\n• *Customer Service* - Support and service roles\n• *Finance & Accounting* - Financial jobs\n• *Admin & Office Work* - Administrative roles\n• *Teaching / Training* - Education roles\n• *Delivery & Logistics* - Transport jobs\n• *Internships / Attachments* - Learning opportunities\n\n💡 *How to use:*\n• Send any category name to set your interest\n• Send *jobs* to get job alerts\n• Send *balance* to check your credits\n\nTry sending a job category now!"⟩

/-- The fallback when a caught exception is rate-limit-classified
(lines 346–349). -/
def rateLimitFallbackResp : RespDict :=
  ⟨"", "🤖 I\x27m currently at my daily AI limit, but I can still help! Try asking about our job categories:\n\n• *Data Entry* - Data processing jobs\n• *Sales & Marketing* - Business development roles\n• *Software Engineering* - Programming and tech jobs\n• *Customer Service* - Support and service roles\n\nOr send the name of any category to get started!"⟩

/-- The fallback for any other caught exception (lines 351–354). -/
def genericFallbackResp : RespDict :=
  ⟨"", "I\x27m having trouble connecting to my AI assistant right now. Please try again later, or feel free to ask me about our job categories!"⟩

/-- The default content when the provider returned a `None` or empty
content (line 332). -/
def noContentMsg : String :=
  "I\x27m sorry, I couldn\x27t generate a response. Please try again."

/-- An exception injected at one of the orchestrator's infrastructure
points, carrying its `str(e)` message.  A fault at a descriptor is
expressed through the outcome oracle instead, since the provider call
already sits in a `try` of its own. -/
inductive Fault where
  | cacheGet (msg : String) : Fault
  | rateLimiter (msg : String) : Fault
  | cachePut (msg : String) : Fault
deriving DecidableEq

/-- Everything outside the module's own state that one `ask_deepseek`
call observes: whether the client is configured, today's date, the
clock readings at the cache read, limiter admission and cache write,
the provider outcomes, and an optionally injected fault. -/
structure AskEnv where
  aiAvailable : Bool
  today : String
  tCacheGet : ℚ
  tAdmit : ℚ
  tCachePut : ℚ
  oracle : ℕ → ℕ → Outcome
  fault : Option Fault

/-- The body of the `try:` block of `ask_deepseek` (lines 300–338):
build the enhanced prompt, run the rate-limited cascade, and either
return the exhaustion fallback (cascade empty — the cache is NOT
written) or assemble the response dict and cache it.  An error is an
exception reaching the orchestrator's `except`, paired with the state
at the moment it was thrown. -/
def askTry (env : AskEnv) (prompt : String) (context : Option PyVal) (cacheKey : String)
    (s : AIState) : Except (String × AIState) (RespDict × AIState) :=
  match build_enhanced_prompt prompt context with
  | .error e => .error (e, s)
  | .ok _enhanced =>
    match env.fault with
    | some (.rateLimiter m) => .error (m, s)
    | _ =>
      match (make_ai_request_with_retry env.oracle 1 env.aiAvailable env.tAdmit s).1,
            (make_ai_request_with_retry env.oracle 1 env.aiAvailable env.tAdmit s).2 with
      | none, s1 => .ok (exhaustionResp, s1)
      | some resp, s1 =>
        match env.fault with
        | some (.cachePut m) => .error (m, s1)
        | _ =>
          .ok (⟨pyOr resp.reasoning "", pyOr resp.content noContentMsg⟩,
            { s1 with aiCache := cache_response s1.aiCache cacheKey
                        ⟨pyOr resp.reasoning "", pyOr resp.content noContentMsg⟩ env.tCachePut })

/-- `ask_deepseek(prompt, context)` (lines 272–354).  The unavailable
check, the cache-key computation (whose `json.dumps` `TypeError` is NOT
inside the `try`), the cache read (cache hits count a cache hit and
return at once), `log_usage_stats()`, then the `try:` body with its
`except`, which classifies `str(e)` into the rate-limit or the generic
fallback.  A top-level `.error` is an exception escaping to the caller. -/
def ask_deepseek (md5 : String → String) (env : AskEnv) (prompt : String)
    (context : Option PyVal) (s : AIState) : Except String (RespDict × AIState) :=
  if !env.aiAvailable then .ok (unavailableResp, s)
  else
    match get_cache_key md5 prompt context with
    | .error e => .error e
    | .ok cacheKey =>
      match env.fault with
      | some (.cacheGet m) => .error m
      | _ =>
        match (get_cached_response s.aiCache cacheKey env.tCacheGet).1,
              (get_cached_response s.aiCache cacheKey env.tCacheGet).2 with
        | some resp, cache1 =>
          .ok (resp, { s with aiCache := cache1, usageCacheHits := s.usageCacheHits + 1 })
        | none, cache1 =>
          match askTry env prompt context cacheKey
              (log_usage_stats { s with aiCache := cache1 } env.today) with
          | .ok out => .ok out
          | .error (m, sErr) =>
            if isRateLimitMsg m then .ok (rateLimitFallbackResp, sErr)
            else .ok (genericFallbackResp, sErr)

/-- The content of a non-raising `ask_deepseek` result, `none` when an
exception escaped. -/
def askContent (r : Except String (RespDict × AIState)) : Option String :=
  match r with
  | .ok (rd, _) => some rd.content
  | .error _ => none

/-- The final module state of a non-raising `ask_deepseek` result. -/
def askState (r : Except String (RespDict × AIState)) : Option AIState :=
  match r with
  | .ok (_, s) => some s
  | .error _ => none

/-! ## Specification-side definitions used by the theorems -/

/-- Number of admitted timestamps inside the trailing 60-second window
ending at `T`. -/
def windowCount (adm : List ℚ) (T : ℚ) : ℕ :=
  (adm.filter fun u => decide (T - u < 60 ∧ u ≤ T)).length

/-- Invariant tying the limiter state to the list `adm` of admitted
times after a poll at time `tcur`: the stored window is exactly the
admitted times younger than 60 s, `LAST_REQUEST_TIME` is the last
admitted time, all admissions are in the past, consecutive admissions
are at least `MIN_REQUEST_INTERVAL` apart, and every trailing window
holds at most `MAX_REQUESTS_PER_MINUTE` admissions. -/
def RLGood (adm : List ℚ) (s : RLState) (tcur : ℚ) : Prop :=
  s.request_times = adm.filter (fun u => decide (tcur - u < 60)) ∧
  s.last_request_time = adm.getLastD 0 ∧
  (∀ u ∈ adm, u ≤ tcur) ∧
  adm.Chain' (fun a b => a + MIN_REQUEST_INTERVAL ≤ b) ∧
  (∀ T : ℚ, windowCount adm T ≤ MAX_REQUESTS_PER_MINUTE)

/-- Key uniqueness of a cache table (Python dicts cannot hold a key
twice). -/
def NodupKeys (c : CacheTable) : Prop :=
  (c.map Prod.fst).Nodup

/-- A whole sequence of `cache_response` calls starting from the empty
cache. -/
def runPuts (ops : List (String × RespDict × ℚ)) : CacheTable :=
  ops.foldl (fun c op => cache_response c op.1 op.2.1 op.2.2) []

/-- The module state carried by an `askTry` result, successful or not. -/
def tryState : Except (String × AIState) (RespDict × AIState) → AIState
  | .ok (_, s) => s
  | .error (_, s) => s

/-! ## Theorems -/

/-- With every first attempt failing, the cascade with one retry per
model returns no response and logs one failure per descriptor, in
order. -/
theorem cascade_allfail (oracle : ℕ → ℕ → Outcome) (h : ∀ j, (oracle j 0).isErr = true)
    (models : List ModelConfig) : ∀ idx,
    (cascade oracle 1 idx models).1 = none ∧
    (cascade oracle 1 idx models).2 = models.map fun c => (c.name, false) := by
  induction models with
  | nil => intro idx; simp [cascade]
  | cons cfg rest ih =>
    intro idx
    have h0 := h idx
    rcases ho : oracle idx 0 with resp | m
    · rw [ho] at h0; simp [Outcome.isErr] at h0
    · have ht : tryModelAux oracle idx cfg.name 0 1 = (none, [(cfg.name, false)]) := by
        simp [tryModelAux, ho]
      simp [cascade, ht, (ih (idx + 1)).1, (ih (idx + 1)).2]

/-- With every first attempt failing, `make_ai_request_with_retry`
returns `None` and only records the limiter admission and the failure
log. -/
theorem make_allfail (oracle : ℕ → ℕ → Outcome) (h : ∀ j, (oracle j 0).isErr = true)
    (t : ℚ) (s : AIState) :
    make_ai_request_with_retry oracle 1 true t s =
      (none, { s with request_times := pruneTimes t s.request_times ++ [t],
                      last_request_time := t,
                      modelUsage := applyUsageLog s.modelUsage
                        (FALLBACK_MODELS.map fun c => (c.name, false)) }) := by
  have hc := cascade_allfail oracle h FALLBACK_MODELS 0
  simp [make_ai_request_with_retry, hc.1, hc.2, wait_for_rate_limit]

/-- `make_ai_request_with_retry` never touches the cache, the daily
request / cache-hit counters or the date. -/
theorem make_state_fields (oracle : ℕ → ℕ → Outcome) (mr : ℕ) (b : Bool) (t : ℚ) (s : AIState) :
    (make_ai_request_with_retry oracle mr b t s).2.aiCache = s.aiCache ∧
    (make_ai_request_with_retry oracle mr b t s).2.usageRequests = s.usageRequests ∧
    (make_ai_request_with_retry oracle mr b t s).2.usageCacheHits = s.usageCacheHits ∧
    (make_ai_request_with_retry oracle mr b t s).2.usageDate = s.usageDate := by
  cases b
  · simp [make_ai_request_with_retry]
  · rcases hc : (cascade oracle mr 0 FALLBACK_MODELS).1 with _ | rc
    · simp [make_ai_request_with_retry, hc, wait_for_rate_limit]
    · obtain ⟨resp, cfg⟩ := rc
      by_cases hp : 1 < cfg.priority <;>
        simp [make_ai_request_with_retry, hc, hp, wait_for_rate_limit]

/-- A real (configured-client) `make_ai_request_with_retry` call stamps
`LAST_REQUEST_TIME` with the limiter admission time. -/
theorem make_last (oracle : ℕ → ℕ → Outcome) (mr : ℕ) (t : ℚ) (s : AIState) :
    (make_ai_request_with_retry oracle mr true t s).2.last_request_time = t := by
  rcases hc : (cascade oracle mr 0 FALLBACK_MODELS).1 with _ | rc
  · simp [make_ai_request_with_retry, hc, wait_for_rate_limit]
  · obtain ⟨resp, cfg⟩ := rc
    by_cases hp : 1 < cfg.priority <;>
      simp [make_ai_request_with_retry, hc, hp, wait_for_rate_limit]

/-- C7: the cascade tries the descriptors in ascending priority order
(their priorities are `[1, 2, 3, 4]` in list order), returns the
response of the first descriptor whose call succeeds, and the daily
model-switch counter is bumped exactly once if and only if the winner is
not the primary (priority 1 ↔ index 0) descriptor.  `i` is the index of
the first succeeding descriptor, `hi` bounds it by the cascade length. -/
theorem cascade_ordering (oracle : ℕ → ℕ → Outcome) (i : ℕ) (hi : i < 4)
    (hfail : ∀ j, j < i → (oracle j 0).isErr = true)
    (resp : ProviderResp) (hsucc : oracle i 0 = .ok resp) :
    (cascade oracle 1 0 FALLBACK_MODELS).1 = some (resp, FALLBACK_MODELS.getD i ⟨"", 0, 0, 0⟩) ∧
    (cascade oracle 1 0 FALLBACK_MODELS).2 =
      ((FALLBACK_MODELS.take i).map fun c => (c.name, false)) ++
        [((FALLBACK_MODELS.getD i ⟨"", 0, 0, 0⟩).name, true)] ∧
    FALLBACK_MODELS.map (fun c => c.priority) = [1, 2, 3, 4] ∧
    (1 < (FALLBACK_MODELS.getD i ⟨"", 0, 0, 0⟩).priority ↔ 0 < i) ∧
    ∀ (t : ℚ) (s : AIState),
      (make_ai_request_with_retry oracle 1 true t s).1 = some resp ∧
      (make_ai_request_with_retry oracle 1 true t s).2.usageModelSwitches =
        s.usageModelSwitches + (if 0 < i then 1 else 0) := by
  interval_cases i
  · have hcas : (cascade oracle 1 0 FALLBACK_MODELS).1 =
        some (resp, FALLBACK_MODELS.getD 0 ⟨"", 0, 0, 0⟩) ∧
        (cascade oracle 1 0 FALLBACK_MODELS).2 = [((FALLBACK_MODELS.getD 0 ⟨"", 0, 0, 0⟩).name, true)] := by
      simp [cascade, tryModelAux, hsucc, FALLBACK_MODELS]
    refine ⟨hcas.1, by simpa using hcas.2, by decide, by simp [FALLBACK_MODELS], ?_⟩
    intro t s
    simp [make_ai_request_with_retry, hcas.1]; simp [FALLBACK_MODELS]
  · have h0 := hfail 0 (by omega)
    rcases ho0 : oracle 0 0 with r0 | m0
    · rw [ho0] at h0; simp [Outcome.isErr] at h0
    · have hcas : (cascade oracle 1 0 FALLBACK_MODELS).1 =
          some (resp, FALLBACK_MODELS.getD 1 ⟨"", 0, 0, 0⟩) ∧
          (cascade oracle 1 0 FALLBACK_MODELS).2 =
            ((FALLBACK_MODELS.take 1).map fun c => (c.name, false)) ++
              [((FALLBACK_MODELS.getD 1 ⟨"", 0, 0, 0⟩).name, true)] := by
        simp [cascade, tryModelAux, hsucc, ho0, FALLBACK_MODELS]
      refine ⟨hcas.1, hcas.2, by decide, by simp [FALLBACK_MODELS], ?_⟩
      intro t s
      simp [make_ai_request_with_retry, hcas.1]; simp [FALLBACK_MODELS]
  · have h0 := hfail 0 (by omega)
    have h1 := hfail 1 (by omega)
    rcases ho0 : oracle 0 0 with r0 | m0
    · rw [ho0] at h0; simp [Outcome.isErr] at h0
    · rcases ho1 : oracle 1 0 with r1 | m1
      · rw [ho1] at h1; simp [Outcome.isErr] at h1
      · have hcas : (cascade oracle 1 0 FALLBACK_MODELS).1 =
            some (resp, FALLBACK_MODELS.getD 2 ⟨"", 0, 0, 0⟩) ∧
            (cascade oracle 1 0 FALLBACK_MODELS).2 =
              ((FALLBACK_MODELS.take 2).map fun c => (c.name, false)) ++
                [((FALLBACK_MODELS.getD 2 ⟨"", 0, 0, 0⟩).name, true)] := by
          simp [cascade, tryModelAux, hsucc, ho0, ho1, FALLBACK_MODELS]
        refine ⟨hcas.1, hcas.2, by decide, by simp [FALLBACK_MODELS], ?_⟩
        intro t s
        simp [make_ai_request_with_retry, hcas.1]; simp [FALLBACK_MODELS]
  · have h0 := hfail 0 (by omega)
    have h1 := hfail 1 (by omega)
    have h2 := hfail 2 (by omega)
    rcases ho0 : oracle 0 0 with r0 | m0
    · rw [ho0] at h0; simp [Outcome.isErr] at h0
    · rcases ho1 : oracle 1 0 with r1 | m1
      · rw [ho1] at h1; simp [Outcome.isErr] at h1
      · rcases ho2 : oracle 2 0 with r2 | m2
        · rw [ho2] at h2; simp [Outcome.isErr] at h2
        · have hcas : (cascade oracle 1 0 FALLBACK_MODELS).1 =
              some (resp, FALLBACK_MODELS.getD 3 ⟨"", 0, 0, 0⟩) ∧
              (cascade oracle 1 0 FALLBACK_MODELS).2 =
                ((FALLBACK_MODELS.take 3).map fun c => (c.name, false)) ++
                  [((FALLBACK_MODELS.getD 3 ⟨"", 0, 0, 0⟩).name, true)] := by
            simp [cascade, tryModelAux, hsucc, ho0, ho1, ho2, FALLBACK_MODELS]
          refine ⟨hcas.1, hcas.2, by decide, by simp [FALLBACK_MODELS], ?_⟩
          intro t s
          simp [make_ai_request_with_retry, hcas.1]; simp [FALLBACK_MODELS]

/-- `log_usage_stats` only touches the `daily_usage` fields. -/
theorem log_usage_fields (s : AIState) (today : String) :
    (log_usage_stats s today).aiCache = s.aiCache ∧
    (log_usage_stats s today).request_times = s.request_times ∧
    (log_usage_stats s today).last_request_time = s.last_request_time ∧
    (log_usage_stats s today).modelUsage = s.modelUsage := by
  by_cases h : s.usageDate = today <;> simp [log_usage_stats, h]

/-- The request counter after `log_usage_stats`: one on a day rollover,
incremented otherwise. -/
theorem log_usage_requests (s : AIState) (today : String) :
    (log_usage_stats s today).usageRequests =
      if s.usageDate = today then s.usageRequests + 1 else 1 := by
  by_cases h : s.usageDate = today <;> simp [log_usage_stats, h]

/-- On a cache hit (the read projection returns a response),
`ask_deepseek` returns exactly the cached response and only bumps the
cache-hit counter. -/
theorem ask_proj_hit (md5 : String → String) (env : AskEnv) (prompt : String)
    (context : Option PyVal) (s : AIState) (key : String) (resp : RespDict)
    (hav : env.aiAvailable = true)
    (hkey : get_cache_key md5 prompt context = .ok key)
    (hfault : ∀ m, env.fault ≠ some (.cacheGet m))
    (hg : (get_cached_response s.aiCache key env.tCacheGet).1 = some resp) :
    ask_deepseek md5 env prompt context s =
      .ok (resp, { s with aiCache := (get_cached_response s.aiCache key env.tCacheGet).2,
                          usageCacheHits := s.usageCacheHits + 1 }) := by
  unfold ask_deepseek
  rcases hf : env.fault with _ | f
  · simp [hav, hkey, hf, hg]
  · cases f with
    | cacheGet m => exact absurd hf (hfault m)
    | rateLimiter m => simp [hav, hkey, hf, hg]
    | cachePut m => simp [hav, hkey, hf, hg]

/-- On a cache miss, `ask_deepseek` is the caught `try:` body applied to
the request-counted state. -/
theorem ask_miss_eq (md5 : String → String) (env : AskEnv) (prompt : String)
    (context : Option PyVal) (s : AIState) (key : String)
    (hav : env.aiAvailable = true)
    (hkey : get_cache_key md5 prompt context = .ok key)
    (hfault : ∀ m, env.fault ≠ some (.cacheGet m))
    (hmiss : (get_cached_response s.aiCache key env.tCacheGet).1 = none) :
    ask_deepseek md5 env prompt context s =
      match askTry env prompt context key
          (log_usage_stats { s with aiCache := (get_cached_response s.aiCache key env.tCacheGet).2 }
            env.today) with
      | .ok out => .ok out
      | .error (m, sErr) =>
        if isRateLimitMsg m then .ok (rateLimitFallbackResp, sErr)
        else .ok (genericFallbackResp, sErr) := by
  unfold ask_deepseek
  rcases hf : env.fault with _ | f
  · simp [hav, hkey, hf, hmiss]
  · cases f with
    | cacheGet m => exact absurd hf (hfault m)
    | rateLimiter m => simp [hav, hkey, hf, hmiss]
    | cachePut m => simp [hav, hkey, hf, hmiss]

/-- No branch of the `try:` body changes the request counter, the date
or the cache-hit counter. -/
theorem askTry_fields (env : AskEnv) (prompt : String) (context : Option PyVal)
    (key : String) (s : AIState) :
    (tryState (askTry env prompt context key s)).usageRequests = s.usageRequests ∧
    (tryState (askTry env prompt context key s)).usageDate = s.usageDate ∧
    (tryState (askTry env prompt context key s)).usageCacheHits = s.usageCacheHits := by
  have hm := make_state_fields env.oracle 1 env.aiAvailable env.tAdmit s
  rcases hb : build_enhanced_prompt prompt context with e | enh
  · simp [askTry, hb, tryState]
  · rcases hf : env.fault with _ | f
    · rcases hr : (make_ai_request_with_retry env.oracle 1 env.aiAvailable env.tAdmit s).1
        with _ | resp
      · simp [askTry, hb, hf, hr, tryState, hm.1, hm.2.1, hm.2.2.1, hm.2.2.2]
      · simp [askTry, hb, hf, hr, tryState, hm.1, hm.2.1, hm.2.2.1, hm.2.2.2]
    · cases f with
      | cacheGet m =>
        rcases hr : (make_ai_request_with_retry env.oracle 1 env.aiAvailable env.tAdmit s).1
          with _ | resp
        · simp [askTry, hb, hf, hr, tryState, hm.1, hm.2.1, hm.2.2.1, hm.2.2.2]
        · simp [askTry, hb, hf, hr, tryState, hm.1, hm.2.1, hm.2.2.1, hm.2.2.2]
      | rateLimiter m => simp [askTry, hb, hf, tryState]
      | cachePut m =>
        rcases hr : (make_ai_request_with_retry env.oracle 1 env.aiAvailable env.tAdmit s).1
          with _ | resp
        · simp [askTry, hb, hf, hr, tryState, hm.1, hm.2.1, hm.2.2.1, hm.2.2.2]
        · simp [askTry, hb, hf, hr, tryState, hm.1, hm.2.1, hm.2.2.1, hm.2.2.2]

/-- Witness for C7: second descriptor succeeds, first fails; the
response of the second model is returned and one model switch is
recorded. -/
theorem cascade_ordering_witness :
    (cascade (fun j _ => if j = 1 then .ok ⟨some "hi", none⟩ else .err "busy") 1 0
        FALLBACK_MODELS).1 = some (⟨some "hi", none⟩, FALLBACK_MODELS.getD 1 ⟨"", 0, 0, 0⟩) ∧
    (make_ai_request_with_retry (fun j _ => if j = 1 then .ok ⟨some "hi", none⟩ else .err "busy")
        1 true 0 initAIState).2.usageModelSwitches = 0 + (if 0 < 1 then 1 else 0) := by
  have h := cascade_ordering (fun j _ => if j = 1 then .ok ⟨some "hi", none⟩ else .err "busy") 1
    (by omega) (by intro j hj; interval_cases j; rfl) ⟨some "hi", none⟩ rfl
  exact ⟨h.1, (h.2.2.2.2 0 initAIState).2⟩

/-- C10: when the AI client is not configured, `ask_deepseek` returns
the fixed unavailable message and leaves the whole module state — cache,
rate window, daily counters, model usage — untouched. -/
theorem unavailable_frame (md5 : String → String) (env : AskEnv) (prompt : String)
    (context : Option PyVal) (s : AIState) (h : env.aiAvailable = false) :
    ask_deepseek md5 env prompt context s = .ok (unavailableResp, s) := by
  simp [ask_deepseek, h]

/-- Witness for C10 at a concrete unavailable environment. -/
theorem unavailable_frame_witness :
    ask_deepseek hashModel ⟨false, "2025-10-12", 0, 0, 0, fun _ _ => .err "x", none⟩
      "hello" none initAIState = .ok (unavailableResp, initAIState) :=
  unavailable_frame hashModel ⟨false, "2025-10-12", 0, 0, 0, fun _ _ => .err "x", none⟩
    "hello" none initAIState rfl

/-- C4 counterexample: two different context values — `None` and the
(falsy) empty dict — produce the same hashed string and hence the same
cache key, so the fingerprint is not injective over contexts. -/
theorem cache_key_counterexample :
    get_cache_key hashModel "career advice" (some (PyVal.dict [])) =
      get_cache_key hashModel "career advice" none ∧
    cacheKeyBase "career advice" (some (PyVal.dict [])) = cacheKeyBase "career advice" none ∧
    some (PyVal.dict []) ≠ (none : Option PyVal) :=
  ⟨rfl, rfl, by simp⟩

/-- C4 amended: the fingerprint is deterministic — any two contexts with
the same serialization (in particular, identical ones) give the same key
for every prompt and every hash — but it is not injective over context:
`None` and the empty dict always collide. -/
theorem cache_key_amended (md5 : String → String) (p : String) (c1 c2 : Option PyVal)
    (h : contextStrE c1 = contextStrE c2) :
    get_cache_key md5 p c1 = get_cache_key md5 p c2 ∧
    get_cache_key md5 p none = get_cache_key md5 p (some (.dict [])) ∧
    some (PyVal.dict []) ≠ (none : Option PyVal) := by
  refine ⟨?_, rfl, by simp⟩
  simp only [get_cache_key, cacheKeyBase, h]

/-- Witness for C4 amended at a concrete prompt and colliding contexts. -/
theorem cache_key_witness :
    (get_cache_key hashModel "jobs" (some (PyVal.dict [])) =
      get_cache_key hashModel "jobs" none) ∧
    (get_cache_key hashModel "jobs" none = get_cache_key hashModel "jobs" (some (.dict []))) ∧
    some (PyVal.dict []) ≠ (none : Option PyVal) :=
  cache_key_amended hashModel "jobs" (some (PyVal.dict [])) none rfl

/-- C1 counterexample: a fault injected at the cache read escapes
`ask_deepseek` (the read happens before the `try:`), and a context whose
fields are not JSON serializable makes the key computation raise
`TypeError` to the caller. -/
theorem no_exception_leakage_counterexample :
    ask_deepseek hashModel
        ⟨true, "2025-10-12", 10, 11, 12, fun _ _ => .err "x", some (.cacheGet "boom")⟩
        "hello" none initAIState = .error "boom" ∧
    ask_deepseek hashModel ⟨true, "2025-10-12", 10, 11, 12, fun _ _ => .err "x", none⟩
        "hello" (some (.dict [("f", .nonser 0)])) initAIState =
      .error "TypeError: Object is not JSON serializable" :=
  ⟨rfl, rfl⟩

/-- C2 counterexample: the text returned when the cascade is exhausted
and the text returned when an unexpected transport-level exception is
caught are two different strings, so the failure modes do not resolve to
one and the same fallback. -/
theorem single_fallback_counterexample :
    askContent (ask_deepseek hashModel ⟨true, "d", 10, 11, 12, fun _ _ => .err "x", none⟩
        "q" none initAIState) = some exhaustionResp.content ∧
    askContent (ask_deepseek hashModel
        ⟨true, "d", 10, 11, 12, fun _ _ => .ok ⟨some "a", none⟩,
          some (.rateLimiter "connection reset")⟩ "q" none initAIState) =
      some genericFallbackResp.content ∧
    exhaustionResp.content ≠ genericFallbackResp.content :=
  ⟨by decide, by decide, by decide⟩

/-- C3 counterexample: on a cache hit `ask_deepseek` does not increment
the daily request counter at all — only the cache-hit counter moves — so
the counter is not incremented on every invocation. -/
theorem request_count_counterexample :
    (askState (ask_deepseek hashModel ⟨true, "2025-10-12", 10, 11, 12, fun _ _ => .err "x", none⟩
        "q" none { initAIState with aiCache := [(hashModel "q", ⟨⟨"", "ans"⟩, 0⟩)] })).map
      (fun st => (st.usageRequests, st.usageCacheHits)) = some (0, 1) ∧
    askContent (ask_deepseek hashModel ⟨true, "2025-10-12", 10, 11, 12, fun _ _ => .err "x", none⟩
        "q" none { initAIState with aiCache := [(hashModel "q", ⟨⟨"", "ans"⟩, 0⟩)] }) =
      some "ans" :=
  ⟨by decide, by decide⟩


/-- C1 amended: for every JSON-serializable context and a fault injected
at the rate limiter, at any descriptor (through the outcome oracle), or
at the cache write, `ask_deepseek` returns a response dict and never
raises.  (A fault at the cache read, or a non-serializable context,
escapes: see the counterexample — those two points run before the
`try:`.) -/
theorem no_exception_leakage_amended (md5 : String → String) (env : AskEnv) (prompt : String)
    (context : Option PyVal) (s : AIState)
    (hser : ∀ e, contextStrE context ≠ .error e)
    (hfault : ∀ m, env.fault ≠ some (.cacheGet m)) :
    ∃ r sf, ask_deepseek md5 env prompt context s = .ok (r, sf) := by
  by_cases hav : env.aiAvailable = true
  · rcases hcs : contextStrE context with e | cs
    · exact absurd hcs (hser e)
    · have hkey : get_cache_key md5 prompt context = .ok (md5 (prompt ++ cs)) := by
        simp [get_cache_key, cacheKeyBase, hcs]
      rcases hg : (get_cached_response s.aiCache (md5 (prompt ++ cs)) env.tCacheGet).1
        with _ | resp
      · rw [ask_miss_eq md5 env prompt context s (md5 (prompt ++ cs)) hav hkey hfault hg]
        rcases ht : askTry env prompt context (md5 (prompt ++ cs))
            (log_usage_stats
              { s with aiCache := (get_cached_response s.aiCache (md5 (prompt ++ cs))
                  env.tCacheGet).2 } env.today) with p | q
        · obtain ⟨m, sE⟩ := p
          by_cases hm : isRateLimitMsg m <;> simp [hm]
        · obtain ⟨r, sO⟩ := q
          exact ⟨r, sO, by simp⟩
      · exact ⟨resp, _, ask_proj_hit md5 env prompt context s (md5 (prompt ++ cs)) resp
          hav hkey hfault hg⟩
  · have hav2 : env.aiAvailable = false := by
      cases h : env.aiAvailable
      · rfl
      · exact absurd h hav
    exact ⟨unavailableResp, s, by simp [ask_deepseek, hav2]⟩

/-- Witness for C1 amended: a fault at the cache write, with a
serializable context, is swallowed and `ask_deepseek` still returns. -/
theorem no_exception_leakage_witness :
    (ask_deepseek hashModel
      ⟨true, "2025-10-12", 10, 11, 12, fun _ _ => .ok ⟨some "a", none⟩,
        some (.cachePut "disk full")⟩ "q" none initAIState).isOk = true := by
  obtain ⟨r, sf, h⟩ := no_exception_leakage_amended hashModel
    ⟨true, "2025-10-12", 10, 11, 12, fun _ _ => .ok ⟨some "a", none⟩,
      some (.cachePut "disk full")⟩ "q" none initAIState
    (by intro e he; simp [contextStrE] at he) (by intro m hm; simp at hm)
  rw [h]; rfl

/-- C8: when every descriptor fails, the cascade returns the `None`
sentinel (distinct from any response, in particular an empty-string
one), `ask_deepseek` returns the predefined exhaustion fallback, the
cache entry for the key is not populated, and the rate limiter was
acquired (the network path was attempted and remains attempted on a
retry with the same key). -/
theorem exhaustion_fallback (md5 : String → String) (env : AskEnv) (prompt : String)
    (context : Option PyVal) (s : AIState) (key : String)
    (hav : env.aiAvailable = true)
    (hkey : get_cache_key md5 prompt context = .ok key)
    (hfault : env.fault = none)
    (hmiss : lookupCache s.aiCache key = none)
    (hbp : ∃ enh, build_enhanced_prompt prompt context = .ok enh)
    (hfail : ∀ j, (env.oracle j 0).isErr = true) :
    (make_ai_request_with_retry env.oracle 1 true env.tAdmit s).1 = none ∧
    (∀ r : ProviderResp, (make_ai_request_with_retry env.oracle 1 true env.tAdmit s).1 ≠ some r) ∧
    ∃ sf, ask_deepseek md5 env prompt context s = .ok (exhaustionResp, sf) ∧
      sf.aiCache = s.aiCache ∧
      lookupCache sf.aiCache key = none ∧
      sf.last_request_time = env.tAdmit := by
  obtain ⟨enh, hb⟩ := hbp
  have hg : get_cached_response s.aiCache key env.tCacheGet = (none, s.aiCache) := by
    simp [get_cached_response, hmiss]
  have hfaultne : ∀ m, env.fault ≠ some (.cacheGet m) := by
    intro m; rw [hfault]; simp
  have hmk := make_allfail env.oracle hfail env.tAdmit
    (log_usage_stats s env.today)
  refine ⟨by rw [make_allfail env.oracle hfail], by rw [make_allfail env.oracle hfail]; simp, ?_⟩
  rw [ask_miss_eq md5 env prompt context s key hav hkey hfaultne (by rw [hg])]
  rw [hg]
  have heta : ({ s with aiCache := s.aiCache } : AIState) = s := rfl
  rw [heta]
  have htry : askTry env prompt context key (log_usage_stats s env.today) =
      .ok (exhaustionResp, (make_ai_request_with_retry env.oracle 1 env.aiAvailable env.tAdmit
        (log_usage_stats s env.today)).2) := by
    rw [askTry, hb]
    rw [hfault]
    have : (make_ai_request_with_retry env.oracle 1 env.aiAvailable env.tAdmit
        (log_usage_stats s env.today)).1 = none := by
      rw [hav, make_allfail env.oracle hfail]
    simp [this]
  rw [htry]
  refine ⟨_, rfl, ?_, ?_, ?_⟩
  · rw [hav, hmk]
    simp [(log_usage_fields s env.today).1]
  · rw [hav, hmk]
    simp [(log_usage_fields s env.today).1, hmiss]
  · rw [hav, make_last]

/-- Witness for C8 at a concrete all-failing oracle. -/
theorem exhaustion_fallback_witness :
    (make_ai_request_with_retry (fun _ _ => .err "x") 1 true 11 initAIState).1 = none ∧
    askContent (ask_deepseek hashModel ⟨true, "d", 10, 11, 12, fun _ _ => .err "x", none⟩
      "q" none initAIState) = some exhaustionResp.content := by
  have h := exhaustion_fallback hashModel ⟨true, "d", 10, 11, 12, fun _ _ => .err "x", none⟩
    "q" none initAIState (hashModel "q") rfl rfl rfl rfl ⟨"q", rfl⟩ (fun j => rfl)
  obtain ⟨sf, he, _, _, _⟩ := h.2.2
  exact ⟨h.1, by rw [he]; rfl⟩

/-- C2 amended: all failure modes resolve without raising, but to three
distinct static fallback texts, not one: the cascade-exhaustion text,
the generic unexpected-exception text, and the rate-limit-classified
exception text.  The exhaustion text and the unexpected-exception text
are not identical. -/
theorem fallback_texts_amended (md5 : String → String) (env : AskEnv) (prompt : String)
    (context : Option PyVal) (s : AIState) (key : String)
    (hav : env.aiAvailable = true)
    (hkey : get_cache_key md5 prompt context = .ok key)
    (hfault : env.fault = none)
    (hmiss : lookupCache s.aiCache key = none)
    (hbp : ∃ enh, build_enhanced_prompt prompt context = .ok enh)
    (hfail : ∀ j, (env.oracle j 0).isErr = true)
    (envB : AskEnv) (promptB : String) (contextB : Option PyVal) (sB : AIState)
    (keyB : String) (m : String)
    (havB : envB.aiAvailable = true)
    (hkeyB : get_cache_key md5 promptB contextB = .ok keyB)
    (hfaultB : envB.fault = some (.rateLimiter m))
    (hmB : isRateLimitMsg m = false)
    (hmissB : lookupCache sB.aiCache keyB = none)
    (hbpB : ∃ enh, build_enhanced_prompt promptB contextB = .ok enh) :
    (∃ sf, ask_deepseek md5 env prompt context s = .ok (exhaustionResp, sf)) ∧
    (∃ sf, ask_deepseek md5 envB promptB contextB sB = .ok (genericFallbackResp, sf)) ∧
    exhaustionResp.content ≠ genericFallbackResp.content ∧
    exhaustionResp.content ≠ rateLimitFallbackResp.content ∧
    genericFallbackResp.content ≠ rateLimitFallbackResp.content := by
  refine ⟨?_, ?_, by decide, by decide, by decide⟩
  · obtain ⟨enh, hb⟩ := hbp
    have hg : get_cached_response s.aiCache key env.tCacheGet = (none, s.aiCache) := by
      simp [get_cached_response, hmiss]
    have hfaultne : ∀ m2, env.fault ≠ some (.cacheGet m2) := by
      intro m2; rw [hfault]; simp
    rw [ask_miss_eq md5 env prompt context s key hav hkey hfaultne (by rw [hg])]
    rw [hg]
    have heta : ({ s with aiCache := s.aiCache } : AIState) = s := rfl
    rw [heta]
    have htry : askTry env prompt context key (log_usage_stats s env.today) =
        .ok (exhaustionResp, (make_ai_request_with_retry env.oracle 1 env.aiAvailable env.tAdmit
          (log_usage_stats s env.today)).2) := by
      rw [askTry, hb, hfault]
      have : (make_ai_request_with_retry env.oracle 1 env.aiAvailable env.tAdmit
          (log_usage_stats s env.today)).1 = none := by
        rw [hav, make_allfail env.oracle hfail]
      simp [this]
    rw [htry]
    exact ⟨_, rfl⟩
  · obtain ⟨enh, hb⟩ := hbpB
    have hg : get_cached_response sB.aiCache keyB envB.tCacheGet = (none, sB.aiCache) := by
      simp [get_cached_response, hmissB]
    have hfaultne : ∀ m2, envB.fault ≠ some (.cacheGet m2) := by
      intro m2; rw [hfaultB]; simp
    rw [ask_miss_eq md5 envB promptB contextB sB keyB havB hkeyB hfaultne (by rw [hg])]
    rw [hg]
    have heta : ({ sB with aiCache := sB.aiCache } : AIState) = sB := rfl
    rw [heta]
    have htry : askTry envB promptB contextB keyB (log_usage_stats sB envB.today) =
        .error (m, log_usage_stats sB envB.today) := by
      rw [askTry, hb, hfaultB]
    rw [htry]
    simp [hmB]

/-- Witness for C2 amended at a concrete exhaustion run and a concrete
non-rate-limit transport fault. -/
theorem fallback_texts_witness :
    askContent (ask_deepseek hashModel ⟨true, "d", 10, 11, 12, fun _ _ => .err "x", none⟩
      "q" none initAIState) = some exhaustionResp.content ∧
    askContent (ask_deepseek hashModel
      ⟨true, "d", 10, 11, 12, fun _ _ => .ok ⟨some "a", none⟩,
        some (.rateLimiter "connection reset")⟩ "q" none initAIState) =
      some genericFallbackResp.content ∧
    exhaustionResp.content ≠ genericFallbackResp.content := by
  have h := fallback_texts_amended hashModel
    ⟨true, "d", 10, 11, 12, fun _ _ => .err "x", none⟩ "q" none initAIState (hashModel "q")
    rfl rfl rfl rfl ⟨"q", rfl⟩ (fun j => rfl)
    ⟨true, "d", 10, 11, 12, fun _ _ => .ok ⟨some "a", none⟩,
      some (.rateLimiter "connection reset")⟩ "q" none initAIState (hashModel "q")
    "connection reset" rfl rfl rfl (by decide) rfl ⟨"q", rfl⟩
  obtain ⟨⟨sf1, h1⟩, ⟨sf2, h2⟩, hne, _, _⟩ := h
  exact ⟨by rw [h1]; rfl, by rw [h2]; rfl, hne⟩

/-- C3 amended: the daily request counter is incremented exactly once on
every cache-miss invocation with a configured client (set to one on a
day rollover); on a cache hit it is NOT incremented — only the cache-hit
counter is — which keeps hits distinguishable from live calls. -/
theorem request_count_amended (md5 : String → String) (env : AskEnv) (prompt : String)
    (context : Option PyVal) (s : AIState) (key : String)
    (hav : env.aiAvailable = true)
    (hkey : get_cache_key md5 prompt context = .ok key)
    (hfault : ∀ m, env.fault ≠ some (.cacheGet m))
    (hmiss : lookupCache s.aiCache key = none)
    (env2 : AskEnv) (prompt2 : String) (context2 : Option PyVal) (s2 : AIState)
    (key2 : String) (item : CacheItem)
    (hav2 : env2.aiAvailable = true)
    (hkey2 : get_cache_key md5 prompt2 context2 = .ok key2)
    (hfault2 : ∀ m, env2.fault ≠ some (.cacheGet m))
    (hhit : lookupCache s2.aiCache key2 = some item)
    (hfresh : env2.tCacheGet - item.timestamp < CACHE_EXPIRY_MINUTES * 60) :
    ((askState (ask_deepseek md5 env prompt context s)).map (fun st => st.usageRequests) =
      some (if s.usageDate = env.today then s.usageRequests + 1 else 1)) ∧
    ask_deepseek md5 env2 prompt2 context2 s2 =
      .ok (item.response, { s2 with usageCacheHits := s2.usageCacheHits + 1 }) ∧
    ({ s2 with usageCacheHits := s2.usageCacheHits + 1 }).usageRequests = s2.usageRequests ∧
    ({ s2 with usageCacheHits := s2.usageCacheHits + 1 }).usageCacheHits =
      s2.usageCacheHits + 1 := by
  have hg : get_cached_response s.aiCache key env.tCacheGet = (none, s.aiCache) := by
    simp [get_cached_response, hmiss]
  have hg2 : get_cached_response s2.aiCache key2 env2.tCacheGet = (some item.response, s2.aiCache) := by
    simp [get_cached_response, hhit, hfresh]
  refine ⟨?_, ?_, rfl, rfl⟩
  · rw [ask_miss_eq md5 env prompt context s key hav hkey hfault (by rw [hg])]
    rw [hg]
    have heta : ({ s with aiCache := s.aiCache } : AIState) = s := rfl
    rw [heta]
    have hfields := askTry_fields env prompt context key (log_usage_stats s env.today)
    rcases ht : askTry env prompt context key (log_usage_stats s env.today) with p | q
    · obtain ⟨m, sE⟩ := p
      rw [ht] at hfields
      have hreq : sE.usageRequests = (log_usage_stats s env.today).usageRequests := hfields.1
      by_cases hm : isRateLimitMsg m <;>
        simp [hm, askState, hreq, log_usage_requests]
    · obtain ⟨r, sO⟩ := q
      rw [ht] at hfields
      have hreq : sO.usageRequests = (log_usage_stats s env.today).usageRequests := hfields.1
      simp [askState, hreq, log_usage_requests]
  · have := ask_proj_hit md5 env2 prompt2 context2 s2 key2 item.response
      hav2 hkey2 hfault2 (by rw [hg2])
    rw [this, hg2]

/-- Witness for C3 amended: a concrete miss bumps the counter to one, a
concrete hit leaves it at zero. -/
theorem request_count_witness :
    ((askState (ask_deepseek hashModel ⟨true, "d", 10, 11, 12, fun _ _ => .err "x", none⟩
        "q" none initAIState)).map (fun st => st.usageRequests) =
      some (if initAIState.usageDate = "d" then initAIState.usageRequests + 1 else 1)) ∧
    ask_deepseek hashModel ⟨true, "d", 10, 11, 12, fun _ _ => .err "x", none⟩ "q" none
        { initAIState with aiCache := [(hashModel "q", ⟨⟨"", "ans"⟩, 0⟩)] } =
      .ok (⟨"", "ans"⟩,
        { ({ initAIState with aiCache := [(hashModel "q", ⟨⟨"", "ans"⟩, 0⟩)] }) with
            usageCacheHits := 0 + 1 }) := by
  have h := request_count_amended hashModel
    ⟨true, "d", 10, 11, 12, fun _ _ => .err "x", none⟩ "q" none initAIState (hashModel "q")
    rfl rfl (by intro m hm; simp at hm) rfl
    ⟨true, "d", 10, 11, 12, fun _ _ => .err "x", none⟩ "q" none
    { initAIState with aiCache := [(hashModel "q", ⟨⟨"", "ans"⟩, 0⟩)] } (hashModel "q")
    ⟨⟨"", "ans"⟩, 0⟩ rfl rfl (by intro m hm; simp at hm) (by decide) (by decide)
  exact ⟨h.1, h.2.1⟩

/-- C9: `get_cached_response` returns the stored response exactly when
an entry exists whose age is strictly under the 30-minute TTL (the
orchestrator then returns it unchanged); a stale entry is deleted and
reported as a miss; an absent key is a plain miss; and on a stale entry
the orchestrator proceeds to the provider (the rate limiter is stamped
with the admission time). -/
theorem cache_read_semantics (c : CacheTable) (k : String) (now : ℚ) (item : CacheItem)
    (hhit : lookupCache c k = some item)
    (hfresh : now - item.timestamp < CACHE_EXPIRY_MINUTES * 60)
    (c2 : CacheTable) (k2 : String) (now2 : ℚ) (item2 : CacheItem)
    (hhit2 : lookupCache c2 k2 = some item2)
    (hstale : ¬(now2 - item2.timestamp < CACHE_EXPIRY_MINUTES * 60))
    (c3 : CacheTable) (k3 : String) (now3 : ℚ)
    (hmiss : lookupCache c3 k3 = none)
    (md5 : String → String) (env : AskEnv) (prompt : String) (context : Option PyVal)
    (s : AIState) (key : String) (item4 : CacheItem)
    (hav : env.aiAvailable = true)
    (hkey : get_cache_key md5 prompt context = .ok key)
    (hfault : ∀ m, env.fault ≠ some (.cacheGet m))
    (hhit4 : lookupCache s.aiCache key = some item4)
    (hfresh4 : env.tCacheGet - item4.timestamp < CACHE_EXPIRY_MINUTES * 60)
    (env5 : AskEnv) (prompt5 : String) (context5 : Option PyVal) (s5 : AIState)
    (key5 : String) (item5 : CacheItem)
    (hav5 : env5.aiAvailable = true)
    (hkey5 : get_cache_key md5 prompt5 context5 = .ok key5)
    (hfault5 : env5.fault = none)
    (hhit5 : lookupCache s5.aiCache key5 = some item5)
    (hstale5 : ¬(env5.tCacheGet - item5.timestamp < CACHE_EXPIRY_MINUTES * 60))
    (hbp5 : ∃ enh, build_enhanced_prompt prompt5 context5 = .ok enh) :
    get_cached_response c k now = (some item.response, c) ∧
    get_cached_response c2 k2 now2 = (none, eraseCacheKey c2 k2) ∧
    get_cached_response c3 k3 now3 = (none, c3) ∧
    ask_deepseek md5 env prompt context s =
      .ok (item4.response, { s with usageCacheHits := s.usageCacheHits + 1 }) ∧
    ∃ r s5f, ask_deepseek md5 env5 prompt5 context5 s5 = .ok (r, s5f) ∧
      s5f.last_request_time = env5.tAdmit := by
  have hg4 : get_cached_response s.aiCache key env.tCacheGet = (some item4.response, s.aiCache) := by
    simp [get_cached_response, hhit4, hfresh4]
  have hg5 : get_cached_response s5.aiCache key5 env5.tCacheGet =
      (none, eraseCacheKey s5.aiCache key5) := by
    simp [get_cached_response, hhit5, hstale5]
  refine ⟨by simp [get_cached_response, hhit, hfresh],
          by simp [get_cached_response, hhit2, hstale],
          by simp [get_cached_response, hmiss], ?_, ?_⟩
  · have := ask_proj_hit md5 env prompt context s key item4.response
      hav hkey hfault (by rw [hg4])
    rw [this, hg4]
  · obtain ⟨enh, hb⟩ := hbp5
    have hfaultne : ∀ m, env5.fault ≠ some (.cacheGet m) := by
      intro m; rw [hfault5]; simp
    rw [ask_miss_eq md5 env5 prompt5 context5 s5 key5 hav5 hkey5 hfaultne (by rw [hg5])]
    rw [hg5]
    set sL := log_usage_stats { s5 with aiCache := eraseCacheKey s5.aiCache key5 } env5.today
      with hsL
    have hlast := make_last env5.oracle 1 env5.tAdmit sL
    rcases hr : (make_ai_request_with_retry env5.oracle 1 env5.aiAvailable env5.tAdmit sL).1
      with _ | resp
    · have htry : askTry env5 prompt5 context5 key5 sL =
          .ok (exhaustionResp,
            (make_ai_request_with_retry env5.oracle 1 env5.aiAvailable env5.tAdmit sL).2) := by
        rw [askTry, hb, hfault5]
        simp [hr]
      rw [htry]
      refine ⟨exhaustionResp, _, rfl, ?_⟩
      rw [hav5] at hr ⊢
      exact hlast
    · have htry : askTry env5 prompt5 context5 key5 sL =
          .ok (⟨pyOr resp.reasoning "", pyOr resp.content noContentMsg⟩,
            { (make_ai_request_with_retry env5.oracle 1 env5.aiAvailable env5.tAdmit sL).2 with
                aiCache := cache_response
                  (make_ai_request_with_retry env5.oracle 1 env5.aiAvailable env5.tAdmit sL).2.aiCache
                  key5 ⟨pyOr resp.reasoning "", pyOr resp.content noContentMsg⟩ env5.tCachePut }) := by
        rw [askTry, hb, hfault5]
        simp [hr]
      rw [htry]
      refine ⟨_, _, rfl, ?_⟩
      rw [hav5] at hr ⊢
      simp [hlast]

/-- Witness for C9 at concrete fresh, stale and absent cache reads and a
concrete stale-entry orchestrator run. -/
theorem cache_read_semantics_witness :
    get_cached_response [("k", ⟨⟨"", "v"⟩, 0⟩)] "k" 10 = (some ⟨"", "v"⟩, [("k", ⟨⟨"", "v"⟩, 0⟩)]) ∧
    get_cached_response [("k", ⟨⟨"", "v"⟩, 0⟩)] "k" 5000 =
      (none, eraseCacheKey [("k", ⟨⟨"", "v"⟩, 0⟩)] "k") ∧
    (askState (ask_deepseek hashModel ⟨true, "d", 5000, 5007, 5008, fun _ _ => .err "x", none⟩
        "q" none { initAIState with aiCache := [(hashModel "q", ⟨⟨"", "old"⟩, 0⟩)] })).map
      (fun st => st.last_request_time) = some 5007 := by
  have h := cache_read_semantics [("k", ⟨⟨"", "v"⟩, 0⟩)] "k" 10 ⟨⟨"", "v"⟩, 0⟩ rfl (by decide)
    [("k", ⟨⟨"", "v"⟩, 0⟩)] "k" 5000 ⟨⟨"", "v"⟩, 0⟩ rfl (by decide)
    ([] : CacheTable) "a" 0 rfl
    hashModel ⟨true, "d", 10, 11, 12, fun _ _ => .err "x", none⟩ "q" none
    { initAIState with aiCache := [(hashModel "q", ⟨⟨"", "fresh"⟩, 0⟩)] } (hashModel "q")
    ⟨⟨"", "fresh"⟩, 0⟩ rfl rfl (by intro m hm; simp at hm) (by decide) (by decide)
    ⟨true, "d", 5000, 5007, 5008, fun _ _ => .err "x", none⟩ "q" none
    { initAIState with aiCache := [(hashModel "q", ⟨⟨"", "old"⟩, 0⟩)] } (hashModel "q")
    ⟨⟨"", "old"⟩, 0⟩ rfl rfl rfl (by decide) (by decide) ⟨"q", rfl⟩
  obtain ⟨r, s5f, he, hl⟩ := h.2.2.2.2
  exact ⟨h.1, h.2.1, by rw [he]; simp [askState, hl]⟩


/-- Overwriting matching entries in place leaves the key list unchanged. -/
theorem map_fst_overwrite (c : CacheTable) (k : String) (v : CacheItem) :
    ((c.map fun e => if e.1 == k then (k, v) else e).map Prod.fst) = c.map Prod.fst := by
  rw [List.map_map]
  apply List.map_congr_left
  intro e _
  rcases e with ⟨a, b⟩
  by_cases h : a = k <;> simp [h]

/-- The key list after a dict assignment: unchanged on overwrite, the
new key appended otherwise. -/
theorem dictInsert_map_fst (c : CacheTable) (k : String) (v : CacheItem) :
    (dictInsert c k v).map Prod.fst =
      if c.any (fun e => e.1 == k) then c.map Prod.fst else c.map Prod.fst ++ [k] := by
  unfold dictInsert
  by_cases h : c.any (fun e => e.1 == k)
  · rw [if_pos h, if_pos h, map_fst_overwrite]
  · rw [if_neg h, if_neg h]
    simp

/-- Dict assignment preserves key uniqueness. -/
theorem NodupKeys_dictInsert (c : CacheTable) (k : String) (v : CacheItem)
    (h : NodupKeys c) : NodupKeys (dictInsert c k v) := by
  unfold NodupKeys at *
  rw [dictInsert_map_fst]
  by_cases ha : c.any (fun e => e.1 == k)
  · rw [if_pos ha]; exact h
  · rw [if_neg ha]
    have hk : k ∉ c.map Prod.fst := by
      intro hmem
      rw [List.mem_map] at hmem
      obtain ⟨e, hme, hfe⟩ := hmem
      exact ha (List.any_eq_true.2 ⟨e, hme, by simp [hfe]⟩)
    refine h.append (List.nodup_singleton k) ?_
    intro a ha1 ha2
    rw [List.mem_singleton] at ha2
    exact hk (ha2 ▸ ha1)

/-- Dict assignment grows the table by at most one entry. -/
theorem length_dictInsert (c : CacheTable) (k : String) (v : CacheItem) :
    (dictInsert c k v).length ≤ c.length + 1 := by
  unfold dictInsert
  by_cases h : c.any (fun e => e.1 == k) <;> simp [h]

/-- `minByTs` of a nonempty table is always `some`. -/
theorem minByTs_cons_isSome (e : String × CacheItem) (rest : List (String × CacheItem)) :
    (minByTs (e :: rest)).isSome = true := by
  rw [minByTs]
  cases h : minByTs rest with
  | none => simp
  | some m => by_cases hlt : m.2.timestamp < e.2.timestamp <;> simp [hlt]

/-- `min(keys, key=timestamp)` on a nonempty table: it names an entry of
the table whose timestamp is minimal. -/
theorem minByTs_spec : ∀ (c : CacheTable), c ≠ [] →
    ∃ e, minByTs c = some e ∧ e ∈ c ∧ ∀ e2 ∈ c, e.2.timestamp ≤ e2.2.timestamp := by
  intro c
  induction c with
  | nil => intro h; exact absurd rfl h
  | cons e rest ih =>
    intro _
    rcases Decidable.em (rest = []) with rfl | hne
    · exact ⟨e, by simp [minByTs], by simp, by simp⟩
    · obtain ⟨m2, hm2, hmem, hmin⟩ := ih hne
      have hred : minByTs (e :: rest) =
          if m2.2.timestamp < e.2.timestamp then some m2 else some e := by
        rw [minByTs, hm2]
      by_cases hlt : m2.2.timestamp < e.2.timestamp
      · refine ⟨m2, by rw [hred, if_pos hlt], .tail _ hmem, ?_⟩
        intro e2 he2
        rcases List.mem_cons.1 he2 with rfl | h2
        · exact le_of_lt hlt
        · exact hmin e2 h2
      · refine ⟨e, by rw [hred, if_neg hlt], .head _, ?_⟩
        intro e2 he2
        rcases List.mem_cons.1 he2 with rfl | h2
        · exact le_refl _
        · exact le_trans (not_lt.1 hlt) (hmin e2 h2)

/-- Deleting a present key from a duplicate-free table removes exactly
one entry. -/
theorem eraseCacheKey_length : ∀ (c : CacheTable) (k : String), NodupKeys c →
    k ∈ c.map Prod.fst → (eraseCacheKey c k).length + 1 = c.length := by
  intro c
  induction c with
  | nil => intro k _ hk; simp at hk
  | cons e rest ih =>
    intro k hnd hk
    have hnd2 : e.1 ∉ rest.map Prod.fst ∧ NodupKeys rest := by
      have h2 := hnd
      unfold NodupKeys at h2
      rw [List.map_cons, List.nodup_cons] at h2
      exact ⟨h2.1, h2.2⟩
    by_cases he : (e.1 == k) = true
    · have hek : e.1 = k := eq_of_beq he
      have hrest : eraseCacheKey rest k = rest := by
        apply List.filter_eq_self.mpr
        intro a ha
        have hne : a.1 ≠ k := by
          intro h0
          exact hnd2.1 (hek ▸ h0 ▸ List.mem_map_of_mem Prod.fst ha)
        simp [hne]
      have hsplit : eraseCacheKey (e :: rest) k = eraseCacheKey rest k := by
        simp [eraseCacheKey, List.filter_cons, he]
      rw [hsplit, hrest]
      simp
    · have hkr : k ∈ rest.map Prod.fst := by
        rw [List.map_cons, List.mem_cons] at hk
        rcases hk with h0 | h0
        · exact absurd (by simp [h0]) he
        · exact h0
      have hrec := ih k hnd2.2 hkr
      have hsplit : eraseCacheKey (e :: rest) k = e :: eraseCacheKey rest k := by
        simp [eraseCacheKey, List.filter_cons, he]
      rw [hsplit]
      simp only [List.length_cons]
      omega

/-- One `cache_response` call keeps key uniqueness and the 100-entry
bound. -/
theorem cache_response_step (c : CacheTable) (k : String) (r : RespDict) (t : ℚ)
    (hnd : NodupKeys c) (hlen : c.length ≤ 100) :
    NodupKeys (cache_response c k r t) ∧ (cache_response c k r t).length ≤ 100 := by
  have hins_nd : NodupKeys (dictInsert c k ⟨r, t⟩) := NodupKeys_dictInsert c k ⟨r, t⟩ hnd
  have hins_len : (dictInsert c k ⟨r, t⟩).length ≤ 101 :=
    le_trans (length_dictInsert c k ⟨r, t⟩) (by omega)
  unfold cache_response
  by_cases h : 100 < (dictInsert c k ⟨r, t⟩).length
  · have hne : dictInsert c k ⟨r, t⟩ ≠ [] := by
      intro h0; rw [h0] at h; simp at h
    obtain ⟨e, hm, hmem, hmin⟩ := minByTs_spec (dictInsert c k ⟨r, t⟩) hne
    rw [hm]
    have hkeys : e.1 ∈ (dictInsert c k ⟨r, t⟩).map Prod.fst := List.mem_map_of_mem Prod.fst hmem
    have herase := eraseCacheKey_length (dictInsert c k ⟨r, t⟩) e.1 hins_nd hkeys
    constructor
    · simp only [h, if_true]
      unfold NodupKeys at hins_nd ⊢
      exact (List.Sublist.map Prod.fst (List.filter_sublist _)).nodup hins_nd
    · simp only [h, if_true]
      omega
  · simp only [h, if_false]
    exact ⟨hins_nd, by omega⟩

/-- Any put sequence started from a duplicate-free table within capacity
stays duplicate-free and within capacity. -/
theorem runPuts_inv (ops : List (String × RespDict × ℚ)) : ∀ (c : CacheTable),
    NodupKeys c → c.length ≤ 100 →
    NodupKeys (ops.foldl (fun c2 op => cache_response c2 op.1 op.2.1 op.2.2) c) ∧
    (ops.foldl (fun c2 op => cache_response c2 op.1 op.2.1 op.2.2) c).length ≤ 100 := by
  induction ops with
  | nil => intro c hnd hlen; exact ⟨hnd, hlen⟩
  | cons op rest ih =>
    intro c hnd hlen
    have hstep := cache_response_step c op.1 op.2.1 op.2.2 hnd hlen
    simpa using ih (cache_response c op.1 op.2.1 op.2.2) hstep.1 hstep.2

/-- C6: after every put of any put sequence the table holds at most 100
entries (and keys stay unique); a single put on a within-capacity table
stays within capacity; and whenever the insertion pushes the table past
capacity, exactly one entry is evicted — one holding the minimal
`timestamp` among the entries present after the insertion — while an
insertion within capacity evicts nothing. -/
theorem cache_capacity_eviction (ops : List (String × RespDict × ℚ))
    (c : CacheTable) (k : String) (r : RespDict) (t : ℚ)
    (hnd : NodupKeys c) (hlen : c.length ≤ 100) :
    (runPuts ops).length ≤ 100 ∧
    NodupKeys (runPuts ops) ∧
    (cache_response c k r t).length ≤ 100 ∧
    (100 < (dictInsert c k ⟨r, t⟩).length →
      ∃ e, minByTs (dictInsert c k ⟨r, t⟩) = some e ∧
        e ∈ dictInsert c k ⟨r, t⟩ ∧
        (∀ e2 ∈ dictInsert c k ⟨r, t⟩, e.2.timestamp ≤ e2.2.timestamp) ∧
        cache_response c k r t = eraseCacheKey (dictInsert c k ⟨r, t⟩) e.1 ∧
        (cache_response c k r t).length + 1 = (dictInsert c k ⟨r, t⟩).length) ∧
    ((dictInsert c k ⟨r, t⟩).length ≤ 100 → cache_response c k r t = dictInsert c k ⟨r, t⟩) := by
  have hrun := runPuts_inv ops [] (by simp [NodupKeys]) (by simp)
  refine ⟨hrun.2, hrun.1, (cache_response_step c k r t hnd hlen).2, ?_, ?_⟩
  · intro h
    have hins_nd : NodupKeys (dictInsert c k ⟨r, t⟩) := NodupKeys_dictInsert c k ⟨r, t⟩ hnd
    have hne : dictInsert c k ⟨r, t⟩ ≠ [] := by
      intro h0; rw [h0] at h; simp at h
    obtain ⟨e, hm, hmem, hmin⟩ := minByTs_spec (dictInsert c k ⟨r, t⟩) hne
    have hkeys : e.1 ∈ (dictInsert c k ⟨r, t⟩).map Prod.fst := List.mem_map_of_mem Prod.fst hmem
    have herase := eraseCacheKey_length (dictInsert c k ⟨r, t⟩) e.1 hins_nd hkeys
    refine ⟨e, hm, hmem, hmin, ?_, ?_⟩
    · unfold cache_response
      simp only [h, if_true, hm]
    · unfold cache_response
      simp only [h, if_true, hm]
      omega
  · intro h
    unfold cache_response
    have h2 : ¬(100 < (dictInsert c k ⟨r, t⟩).length) := by omega
    simp only [h2, if_false]

/-- Witness for C6 at a concrete put sequence and a concrete put. -/
theorem cache_capacity_eviction_witness :
    (runPuts [("a", ⟨"", "x"⟩, 1), ("b", ⟨"", "y"⟩, 2)]).length ≤ 100 ∧
    (cache_response [] "a" ⟨"", "x"⟩ 5).length ≤ 100 := by
  have h := cache_capacity_eviction [("a", ⟨"", "x"⟩, 1), ("b", ⟨"", "y"⟩, 2)]
    [] "a" ⟨"", "x"⟩ 5 (by simp [NodupKeys]) (by simp)
  exact ⟨h.1, h.2.2.1⟩


/-- Filtering with a pointwise-weaker predicate keeps at least as many
elements. -/
theorem length_filter_le_of_imp (l : List ℚ) (p q : ℚ → Bool)
    (h : ∀ a ∈ l, p a = true → q a = true) :
    (l.filter p).length ≤ (l.filter q).length := by
  induction l with
  | nil => simp
  | cons a rest ih =>
    have ih2 := ih fun b hb => h b (.tail _ hb)
    cases hp : p a with
    | true =>
      have hq := h a (.head _) hp
      simp only [List.filter_cons, hp, hq, if_true, List.length_cons]
      omega
    | false =>
      cases hq : q a with
      | true =>
        simp only [List.filter_cons, hp, hq]
        simp only [Bool.false_eq_true, if_false, if_true, List.length_cons]
        omega
      | false =>
        simp only [List.filter_cons, hp, hq]
        simp only [Bool.false_eq_true, if_false]
        omega

/-- Re-pruning an already pruned window at a later time prunes from
scratch: the 60-second filters compose. -/
theorem filter_window_mono (adm : List ℚ) (tcur now : ℚ) (hle : tcur ≤ now)
    (_hmem : ∀ u ∈ adm, u ≤ tcur) :
    (adm.filter fun u => decide (tcur - u < 60)).filter (fun u => decide (now - u < 60)) =
      adm.filter fun u => decide (now - u < 60) := by
  rw [List.filter_filter]
  apply List.filter_congr
  intro u hu
  by_cases h60 : now - u < 60
  · have h60b : tcur - u < 60 := lt_of_le_of_lt (by linarith) h60
    simp [h60, h60b]
  · simp [h60]

/-- One limiter poll preserves the `RLGood` invariant, extending the
admitted list exactly when the poll admits. -/
theorem rlStep_good (adm : List ℚ) (s : RLState) (tcur now : ℚ)
    (hg : RLGood adm s tcur) (hle : tcur ≤ now) :
    RLGood (if (rlStep s now).2 then adm ++ [now] else adm) (rlStep s now).1 now := by
  obtain ⟨hrt, hlast, hmem, hchain, hwin⟩ := hg
  have hprune : pruneTimes now s.request_times = adm.filter fun u => decide (now - u < 60) := by
    rw [pruneTimes, hrt]
    exact filter_window_mono adm tcur now hle hmem
  have hmem2 : ∀ u ∈ adm, u ≤ now := fun u hu => le_trans (hmem u hu) hle
  by_cases hcap : MAX_REQUESTS_PER_MINUTE ≤ (pruneTimes now s.request_times).length
  · have hstep : rlStep s now = (⟨pruneTimes now s.request_times, s.last_request_time⟩, false) := by
      simp [rlStep, can_make_request, hcap]
    rw [hstep]
    exact ⟨hprune, hlast, hmem2, hchain, hwin⟩
  · by_cases hint : now - s.last_request_time < MIN_REQUEST_INTERVAL
    · have hstep : rlStep s now =
          (⟨pruneTimes now s.request_times, s.last_request_time⟩, false) := by
        simp [rlStep, can_make_request, hcap, hint]
      rw [hstep]
      exact ⟨hprune, hlast, hmem2, hchain, hwin⟩
    · have hstep : rlStep s now = (⟨pruneTimes now s.request_times ++ [now], now⟩, true) := by
        simp [rlStep, can_make_request, hcap, hint]
      rw [hstep]
      show RLGood (adm ++ [now]) ⟨pruneTimes now s.request_times ++ [now], now⟩ now
      have hnow60 : decide (now - now < 60) = true := by
        simp
      refine ⟨?_, ?_, ?_, ?_, ?_⟩
      · simp only [List.filter_append, List.filter_cons, List.filter_nil, hnow60, if_true]
        rw [hprune]
      · simp
      · intro u hu
        rcases List.mem_append.1 hu with h2 | h2
        · exact hmem2 u h2
        · rw [List.mem_singleton.1 h2]
      · rw [List.chain'_append]
        refine ⟨hchain, List.chain'_singleton now, ?_⟩
        intro x hx y hy
        rw [List.head?_cons, Option.mem_some_iff] at hy
        have hx2 : adm.getLast? = some x := Option.mem_def.mp hx
        have hxval : adm.getLastD 0 = x := by
          rw [List.getLastD_eq_getLast?, hx2]
          rfl
        have h2 : MIN_REQUEST_INTERVAL ≤ now - s.last_request_time := not_lt.1 hint
        rw [hlast, hxval] at h2
        rw [← hy]
        linarith
      · intro T
        unfold windowCount
        rw [List.filter_append]
        by_cases hwT : T - now < 60 ∧ now ≤ T
        · have hfil : ([now].filter fun u => decide (T - u < 60 ∧ u ≤ T)) = [now] := by
            simp [hwT]
          rw [hfil]
          have hbound : (adm.filter fun u => decide (T - u < 60 ∧ u ≤ T)).length ≤
              (adm.filter fun u => decide (now - u < 60)).length := by
            apply length_filter_le_of_imp
            intro a _ hpa
            rw [decide_eq_true_iff] at hpa
            rw [decide_eq_true_iff]
            have : now - a ≤ T - a := by linarith [hwT.2]
            linarith [hpa.1]
          have hcap2 : (pruneTimes now s.request_times).length < MAX_REQUESTS_PER_MINUTE :=
            not_le.1 hcap
          rw [hprune] at hcap2
          rw [List.length_append]
          have : MAX_REQUESTS_PER_MINUTE = 20 := rfl
          simp only [List.length_singleton]
          omega
        · have hfil : ([now].filter fun u => decide (T - u < 60 ∧ u ≤ T)) = [] := by
            simp [hwT]
          rw [hfil, List.append_nil]
          exact hwin T

/-- Running the poll loop from any `RLGood` state over monotone poll
times lands in an `RLGood` state whose admitted list extends the old
one. -/
theorem rlRun_good : ∀ (ts : List ℚ) (adm : List ℚ) (s : RLState) (tcur : ℚ),
    RLGood adm s tcur → ts.Pairwise (· ≤ ·) → (∀ t ∈ ts, tcur ≤ t) →
    ∃ tf, tcur ≤ tf ∧ RLGood (adm ++ (rlRun s ts).2) (rlRun s ts).1 tf := by
  intro ts
  induction ts with
  | nil =>
    intro adm s tcur hg _ _
    exact ⟨tcur, le_refl _, by simpa [rlRun] using hg⟩
  | cons now rest ih =>
    intro adm s tcur hg hpw hge
    have hle : tcur ≤ now := hge now (.head _)
    have hstep := rlStep_good adm s tcur now hg hle
    have hpw2 : rest.Pairwise (· ≤ ·) := hpw.of_cons
    have hge2 : ∀ t ∈ rest, now ≤ t := fun t ht => List.rel_of_pairwise_cons hpw ht
    obtain ⟨tf, htf, hgf⟩ :=
      ih (if (rlStep s now).2 then adm ++ [now] else adm) (rlStep s now).1 now hstep hpw2 hge2
    refine ⟨tf, le_trans hle htf, ?_⟩
    cases hb : (rlStep s now).2 with
    | false =>
      rw [hb, if_neg (by simp)] at hgf
      simpa only [rlRun, hb, Bool.false_eq_true, if_false] using hgf
    | true =>
      rw [hb, if_pos rfl] at hgf
      rw [List.append_assoc] at hgf
      simpa only [rlRun, hb, if_true, List.singleton_append] using hgf

/-- C5: from the initial limiter state, for any monotone sequence of
poll times: a poll admits only when the pruned window is strictly below
`MAX_REQUESTS_PER_MINUTE` and at least `MIN_REQUEST_INTERVAL` has
elapsed since the last admission; consecutive admitted requests are at
least `MIN_REQUEST_INTERVAL` apart; every trailing 60-second window
contains at most `MAX_REQUESTS_PER_MINUTE` admissions; and after every
poll the stored (pruned) timestamp list has at most
`MAX_REQUESTS_PER_MINUTE` entries. -/
theorem rate_limiter_invariant (ts : List ℚ) (hs : ts.Pairwise (· ≤ ·))
    (h0 : ∀ t ∈ ts, 0 ≤ t) :
    (∀ (s : RLState) (now : ℚ), (rlStep s now).2 = true →
      (pruneTimes now s.request_times).length < MAX_REQUESTS_PER_MINUTE ∧
      MIN_REQUEST_INTERVAL ≤ now - s.last_request_time) ∧
    ((rlRun ⟨[], 0⟩ ts).2.Chain' fun a b => a + MIN_REQUEST_INTERVAL ≤ b) ∧
    (∀ T : ℚ, windowCount (rlRun ⟨[], 0⟩ ts).2 T ≤ MAX_REQUESTS_PER_MINUTE) ∧
    (∀ pre suf, ts = pre ++ suf →
      (rlRun ⟨[], 0⟩ pre).1.request_times.length ≤ MAX_REQUESTS_PER_MINUTE) := by
  have hinit : RLGood [] ⟨[], 0⟩ 0 := by
    refine ⟨by simp, by simp, by simp, by simp, ?_⟩
    intro T
    unfold windowCount
    simp [MAX_REQUESTS_PER_MINUTE]
  have hrungood : ∀ (pre : List ℚ), pre.Pairwise (· ≤ ·) → (∀ t ∈ pre, 0 ≤ t) →
      ∃ tf, RLGood (rlRun ⟨[], 0⟩ pre).2 (rlRun ⟨[], 0⟩ pre).1 tf := by
    intro pre hpw hge
    obtain ⟨tf, _, hgf⟩ := rlRun_good pre [] ⟨[], 0⟩ 0 hinit hpw hge
    exact ⟨tf, by simpa using hgf⟩
  obtain ⟨tf, hgood⟩ := hrungood ts hs h0
  refine ⟨?_, hgood.2.2.2.1, hgood.2.2.2.2, ?_⟩
  · intro s now hflag
    by_cases hcap : MAX_REQUESTS_PER_MINUTE ≤ (pruneTimes now s.request_times).length
    · simp [rlStep, can_make_request, hcap] at hflag
    · by_cases hint : now - s.last_request_time < MIN_REQUEST_INTERVAL
      · simp [rlStep, can_make_request, hcap, hint] at hflag
      · exact ⟨not_le.1 hcap, not_lt.1 hint⟩
  · intro pre suf hts
    subst hts
    have hpwpre : pre.Pairwise (· ≤ ·) := (List.pairwise_append.1 hs).1
    have hgepre : ∀ t ∈ pre, 0 ≤ t := fun t ht => h0 t (List.mem_append_left suf ht)
    obtain ⟨tf2, hg2⟩ := hrungood pre hpwpre hgepre
    have hlen : (rlRun ⟨[], 0⟩ pre).1.request_times.length ≤
        windowCount (rlRun ⟨[], 0⟩ pre).2 tf2 := by
      rw [hg2.1]
      unfold windowCount
      apply length_filter_le_of_imp
      intro a ha hpa
      rw [decide_eq_true_iff] at hpa
      rw [decide_eq_true_iff]
      exact ⟨hpa, hg2.2.2.1 a ha⟩
    exact le_trans hlen (hg2.2.2.2.2 tf2)

/-- Witness for C5 at the concrete poll times 2, 3, 5 (the poll at 3 is
rejected by the 2-second spacing rule). -/
theorem rate_limiter_invariant_witness :
    ((rlRun ⟨[], 0⟩ [2, 3, 5]).2.Chain' fun a b => a + MIN_REQUEST_INTERVAL ≤ b) ∧
    windowCount (rlRun ⟨[], 0⟩ [2, 3, 5]).2 62 ≤ MAX_REQUESTS_PER_MINUTE := by
  have h := rate_limiter_invariant [2, 3, 5] (by decide) (by decide)
  exact ⟨h.2.1, h.2.2.1 62⟩

end AIHelper
